import Mathlib

/-!
Verification of the JSON-to-MDX content pipeline.

This file gives a shallow embedding, in Lean 4, of the content
normalization, validation, composition and catalog-merge logic of the
converter scripts, and proves or refutes the stated properties of that
pipeline.  JavaScript strings are modelled as Lean strings, objects as
structures, absent or possibly-absent fields as Option, and machine
arithmetic as Nat with explicit reductions modulo powers of two.
JavaScript truthiness is modelled per type: a string is falsy when it is
empty or absent, a number when it is zero or absent, an array only when
absent.
-/

namespace DeepV

/-- Character class of a normalized slug: lowercase letters, digits, hyphen. -/
def isSlugChar (c : Char) : Bool :=
  ( 'a' ≤ c && c ≤ 'z') || ( '0' ≤ c && c ≤ '9') || c = '-'

/-- First replacement step of normalizeSlug: every underscore becomes a hyphen. -/
def replaceUnderscores (l : List Char) : List Char :=
  l.map fun c => if c = '_' then '-' else c

/-- Second replacement step of normalizeSlug: every character outside the
class of lowercase letters, digits and hyphen becomes a hyphen. -/
def replaceNonSlug (l : List Char) : List Char :=
  l.map fun c => if isSlugChar c then c else '-'

/-- Third replacement step of normalizeSlug: each maximal run of hyphens is
collapsed to a single hyphen. -/
def collapseHyphens : List Char → List Char
  | [] => []
  | [c] => [c]
  | c1 :: c2 :: rest =>
    if c1 = '-' && c2 = '-' then collapseHyphens (c2 :: rest)
    else c1 :: collapseHyphens (c2 :: rest)

/-- Removal of one leading hyphen, for the anchored start alternative. -/
def dropLeadHyphen : List Char → List Char
  | c :: rest => if c = '-' then rest else c :: rest
  | [] => []

/-- Removal of one trailing hyphen, for the anchored end alternative. -/
def dropTrailHyphen (l : List Char) : List Char :=
  match l.getLast? with
  | some c => if c = '-' then l.dropLast else l
  | none => l

/-- Fourth replacement step of normalizeSlug: one leading and one trailing
hyphen are removed, matching the anchored alternation with the global flag. -/
def stripOneEnds (l : List Char) : List Char :=
  dropTrailHyphen (dropLeadHyphen l)

/-- Slug normalization from the converter: underscores to hyphens, characters
outside the slug class to hyphens, repeated hyphens collapsed, one leading and
one trailing hyphen stripped.  The source applies no lowercasing. -/
def normalizeSlug (slug : String) : String :=
  String.mk (stripOneEnds (collapseHyphens (replaceNonSlug (replaceUnderscores slug.data))))

/-! SHA-256, as specified in FIPS 180-4, over a byte list, with 32-bit words
represented as Nat reduced modulo 2 ^ 32.  The converter truncates the
lowercase hexadecimal digest to its first 8 characters. -/

/-- Right rotation of a 32-bit word held in a Nat. -/
def rotr (n x : Nat) : Nat :=
  (x / 2 ^ n + x % 2 ^ n * 2 ^ (32 - n)) % 2 ^ 32

/-- Big sigma-0 function of SHA-256. -/
def bigSigma0 (x : Nat) : Nat := rotr 2 x ^^^ rotr 13 x ^^^ rotr 22 x

/-- Big sigma-1 function of SHA-256. -/
def bigSigma1 (x : Nat) : Nat := rotr 6 x ^^^ rotr 11 x ^^^ rotr 25 x

/-- Small sigma-0 function of SHA-256. -/
def smallSigma0 (x : Nat) : Nat := rotr 7 x ^^^ rotr 18 x ^^^ x / 2 ^ 3

/-- Small sigma-1 function of SHA-256. -/
def smallSigma1 (x : Nat) : Nat := rotr 17 x ^^^ rotr 19 x ^^^ x / 2 ^ 10

/-- Choice function of SHA-256; complement is xor with the all-ones word. -/
def chFn (x y z : Nat) : Nat := x &&& y ^^^ (x ^^^ 0xffffffff) &&& z

/-- Majority function of SHA-256. -/
def majFn (x y z : Nat) : Nat := x &&& y ^^^ x &&& z ^^^ y &&& z

/-- Round constants of SHA-256. -/
def sha256K : List Nat :=
  [1116352408, 1899447441, 3049323471, 3921009573, 961987163,
   1508970993, 2453635748, 2870763221, 3624381080, 310598401,
   607225278, 1426881987, 1925078388, 2162078206, 2614888103,
   3248222580, 3835390401, 4022224774, 264347078, 604807628,
   770255983, 1249150122, 1555081692, 1996064986, 2554220882,
   2821834349, 2952996808, 3210313671, 3336571891, 3584528711,
   113926993, 338241895, 666307205, 773529912, 1294757372,
   1396182291, 1695183700, 1986661051, 2177026350, 2456956037,
   2730485921, 2820302411, 3259730800, 3345764771, 3516065817,
   3600352804, 4094571909, 275423344, 430227734, 506948616,
   659060556, 883997877, 958139571, 1322822218, 1537002063,
   1747873779, 1955562222, 2024104815, 2227730452, 2361852424,
   2428436474, 2756734187, 3204031479, 3329325298]

/-- State of SHA-256: eight 32-bit words. -/
structure Sha256State where
  h0 : Nat
  h1 : Nat
  h2 : Nat
  h3 : Nat
  h4 : Nat
  h5 : Nat
  h6 : Nat
  h7 : Nat
deriving DecidableEq

/-- Initial hash value of SHA-256. -/
def sha256Init : Sha256State :=
  ⟨1779033703, 3144134277, 1013904242, 2773480762,
   1359893119, 2600822924, 528734635, 1541459225⟩

/-- Big-endian eight-byte encoding of a Nat, used for the length field. -/
def lenBytes8 (n : Nat) : List Nat :=
  [n / 2 ^ 56 % 256, n / 2 ^ 48 % 256, n / 2 ^ 40 % 256, n / 2 ^ 32 % 256,
   n / 2 ^ 24 % 256, n / 2 ^ 16 % 256, n / 2 ^ 8 % 256, n % 256]

/-- Padding of SHA-256: append the byte 0x80, zero bytes up to 56 modulo 64,
then the bit length of the message as eight big-endian bytes. -/
def sha256Pad (msg : List Nat) : List Nat :=
  msg ++ 0x80 :: List.replicate ((119 - msg.length % 64) % 64) 0 ++
    lenBytes8 (8 * msg.length)

/-- Grouping of a byte list into big-endian 32-bit words. -/
def bytesToWords : List Nat → List Nat
  | b0 :: b1 :: b2 :: b3 :: rest =>
    (b0 * 2 ^ 24 + b1 * 2 ^ 16 + b2 * 2 ^ 8 + b3) :: bytesToWords rest
  | _ => []

/-- Grouping of a word list into blocks of sixteen words, with fuel for
structural recursion. -/
def toBlocksGo : Nat → List Nat → List (List Nat)
  | 0, _ => []
  | fuel + 1, ws =>
    if ws.isEmpty then [] else ws.take 16 :: toBlocksGo fuel (ws.drop 16)

/-- Grouping of a word list into blocks of sixteen words. -/
def toBlocks (ws : List Nat) : List (List Nat) := toBlocksGo ws.length ws

/-- Message-schedule extension: 48 further words, each from the words two,
seven, fifteen and sixteen positions back. -/
def scheduleGo : Nat → List Nat → List Nat
  | 0, w => w
  | n + 1, w =>
    scheduleGo n (w ++ [(smallSigma1 (w.getD (w.length - 2) 0) +
      w.getD (w.length - 7) 0 + smallSigma0 (w.getD (w.length - 15) 0) +
      w.getD (w.length - 16) 0) % 2 ^ 32])

/-- Message schedule of a sixteen-word block. -/
def schedule (block : List Nat) : List Nat := scheduleGo 48 block

/-- Compression rounds of SHA-256 over paired round constants and schedule
words. -/
def sha256Rounds :
    List (Nat × Nat) → Nat × Nat × Nat × Nat × Nat × Nat × Nat × Nat →
    Nat × Nat × Nat × Nat × Nat × Nat × Nat × Nat
  | [], st => st
  | (k, wt) :: rest, (a, b, c, d, e, f, g, h) =>
    let t1 := (h + bigSigma1 e + chFn e f g + k + wt) % 2 ^ 32
    let t2 := (bigSigma0 a + majFn a b c) % 2 ^ 32
    sha256Rounds rest ((t1 + t2) % 2 ^ 32, a, b, c, (d + t1) % 2 ^ 32, e, f, g)

/-- Processing of one sixteen-word block into the running hash state. -/
def processBlock (st : Sha256State) (block : List Nat) : Sha256State :=
  let w := schedule block
  match sha256Rounds (sha256K.zip w) (st.h0, st.h1, st.h2, st.h3, st.h4, st.h5, st.h6, st.h7) with
  | (a, b, c, d, e, f, g, h) =>
    ⟨(st.h0 + a) % 2 ^ 32, (st.h1 + b) % 2 ^ 32, (st.h2 + c) % 2 ^ 32,
     (st.h3 + d) % 2 ^ 32, (st.h4 + e) % 2 ^ 32, (st.h5 + f) % 2 ^ 32,
     (st.h6 + g) % 2 ^ 32, (st.h7 + h) % 2 ^ 32⟩

/-- SHA-256 of a byte list, as the final eight-word state. -/
def sha256 (msg : List Nat) : Sha256State :=
  (toBlocks (bytesToWords (sha256Pad msg))).foldl processBlock sha256Init

/-- Lowercase hexadecimal digit for a value below sixteen. -/
def hexChar (n : Nat) : Char :=
  if n < 10 then Char.ofNat (48 + n) else Char.ofNat (87 + n)

/-- Lowercase hexadecimal rendering of a 32-bit word, eight digits. -/
def toHexWord (w : Nat) : List Char :=
  [hexChar (w / 16 ^ 7 % 16), hexChar (w / 16 ^ 6 % 16), hexChar (w / 16 ^ 5 % 16),
   hexChar (w / 16 ^ 4 % 16), hexChar (w / 16 ^ 3 % 16), hexChar (w / 16 ^ 2 % 16),
   hexChar (w / 16 % 16), hexChar (w % 16)]

/-- Lowercase hexadecimal SHA-256 digest of a byte list, 64 characters. -/
def sha256Hex (msg : List Nat) : List Char :=
  let st := sha256 msg
  toHexWord st.h0 ++ toHexWord st.h1 ++ toHexWord st.h2 ++ toHexWord st.h3 ++
  toHexWord st.h4 ++ toHexWord st.h5 ++ toHexWord st.h6 ++ toHexWord st.h7

/-- UTF-8 bytes of a string, as Nat values below 256. -/
def utf8Bytes (s : String) : List Nat :=
  s.toUTF8.toList.map (fun b => b.toNat)

/-- Identifier generation from the converter: first 8 characters of the
lowercase hexadecimal SHA-256 digest of the fixed salt, a hyphen, and the
supplied source key. -/
def generateUniqueId (stackoverflowId : String) : String :=
  let salt := "deepv-content-2025"
  let hashInput := salt ++ "-" ++ stackoverflowId
  String.mk ((sha256Hex (utf8Bytes hashInput)).take 8)

/-! Taxonomy and the category and subcategory resolvers. -/

/-- Category of the loaded taxonomy: an id and its subcategory ids. -/
structure TaxCategory where
  id : String
  subcategories : List String
deriving DecidableEq

/-- Taxonomy handed to the converter: the ordered category list. -/
structure Taxonomy where
  categories : List TaxCategory
deriving DecidableEq

/-- Lowercasing as toLowerCase performs it on basic-plane letters, mapped
per character so that it evaluates by kernel reduction. -/
def jsToLower (s : String) : String := String.mk (s.data.map Char.toLower)

/-- Direct rename table for common category mismatches. -/
def categoryMappings (c : String) : Option String :=
  if c = "programming" then some "programming-languages"
  else if c = "devops" then some "system-devops"
  else if c = "backend" then some "web-backend"
  else if c = "frontend" then some "web-frontend"
  else if c = "database" then some "databases"
  else if c = "db" then some "databases"
  else none

/-- Database-related tag signals. -/
def dbTagSignals : List String :=
  ["sql", "mysql", "postgresql", "mongodb", "database", "sql-server", "oracle", "sqlite"]

/-- DevOps and system related tag signals. -/
def devopsTagSignals : List String :=
  ["docker", "kubernetes", "aws", "azure", "gcp", "linux", "bash", "shell", "devops", "cloud"]

/-- Frontend-related tag signals. -/
def frontendTagSignals : List String :=
  ["javascript", "react", "vue", "angular", "css", "html", "frontend", "ui", "web"]

/-- Mobile-related tag signals. -/
def mobileTagSignals : List String :=
  ["android", "ios", "mobile", "swift", "kotlin"]

/-- Category resolver from the converter.  When the raw category is the
string programming or is absent from the taxonomy, the tag-signal groups are
scanned first, in the fixed order database, devops, frontend, mobile; the
direct rename table is only the final fallback of that scan, and is also the
result when the raw category already exists in the taxonomy. -/
def mapCategory (taxo : Taxonomy) (category : String) (subcategory : Option String)
    (tags : List String) : String :=
  if category = "programming" || !(taxo.categories.any fun cat => cat.id == category) then
    let tagLower := tags.map jsToLower
    if tagLower.any (fun tag => dbTagSignals.contains tag) then "databases"
    else if tagLower.any (fun tag => devopsTagSignals.contains tag) then "system-devops"
    else if tagLower.any (fun tag => frontendTagSignals.contains tag) then "web-frontend"
    else if tagLower.any (fun tag => mobileTagSignals.contains tag) then "mobile"
    else (categoryMappings category).getD category
  else (categoryMappings category).getD category

/-- Subcategory resolver from the converter: only a subcategory equal to the
sentinel general is remapped, by category-specific ordered tag rules with a
per-category default. -/
def mapSubcategory (category : String) (subcategory : Option String)
    (tags : List String) : Option String :=
  if subcategory = some "general" then
    let tagLower := tags.map jsToLower
    if category = "databases" then
      some (if tagLower.contains "sql-server" then "sql"
        else if tagLower.contains "mysql" then "mysql"
        else if tagLower.contains "postgresql" then "postgresql"
        else if tagLower.contains "mongodb" then "mongodb"
        else "sql")
    else if category = "programming-languages" then
      some (if tagLower.any (fun tag => ["java"].contains tag) then "java"
        else if tagLower.any (fun tag => ["python"].contains tag) then "python"
        else if tagLower.any (fun tag => ["javascript", "js", "npm", "node"].contains tag) then "javascript"
        else if tagLower.any (fun tag => ["c#", "csharp"].contains tag) then "csharp"
        else if tagLower.any (fun tag => ["cpp", "c++"].contains tag) then "cpp"
        else if tagLower.any (fun tag => ["c"].contains tag) then "c"
        else if tagLower.any (fun tag => ["go", "golang"].contains tag) then "go"
        else if tagLower.any (fun tag => ["php"].contains tag) then "php"
        else if tagLower.any (fun tag => ["ruby"].contains tag) then "ruby"
        else if tagLower.any (fun tag => ["rust"].contains tag) then "rust"
        else "python")
    else if category = "system-devops" then
      some (if tagLower.any (fun tag => ["linux", "bash", "shell"].contains tag) then "linux"
        else if tagLower.any (fun tag => ["docker", "container"].contains tag) then "containerization"
        else if tagLower.any (fun tag => ["aws", "azure", "gcp", "cloud"].contains tag) then "cloud"
        else if tagLower.any (fun tag => ["git", "github", "gitlab"].contains tag) then "version-control"
        else "shell")
    else if category = "web-frontend" then
      some (if tagLower.any (fun tag => ["css"].contains tag) then "css"
        else if tagLower.any (fun tag => ["html"].contains tag) then "html"
        else "javascript")
    else subcategory
  else subcategory

/-! Record validation.  The validator receives the parsed JSON object; its
metadata fields are free-form, so every field is optional here, and the
JavaScript truthiness tests of the source are modelled per field type. -/

/-- Quality metrics block of a record. -/
structure QualityMetrics where
  wordCount : Option Nat
  codeBlocks : Option Nat
deriving DecidableEq

/-- Metadata mapping of a raw record, each field possibly absent. -/
structure RawMeta where
  title : Option String
  slug : Option String
  uniqueId : Option String
  category : Option String
  subcategory : Option String
  description : Option String
  tags : Option (List String)
  difficulty : Option String
  readTime : Option Nat
  sourceStackOverflowId : Option String
  qualityMetrics : Option QualityMetrics
deriving DecidableEq

/-- Parsed JSON input of the converter: a metadata object and a body. -/
structure JsonData where
  metadata : Option RawMeta
  content : Option String
deriving DecidableEq

/-- Truthiness of an optional string: false for absent and for empty. -/
def strTruthy : Option String → Bool
  | some s => !(s == "")
  | none => false

/-- Auto-mapping phase of validateJsonStructure: when category and tags are
truthy, category and subcategory are rewritten through the resolvers in
place. -/
def autoMapMeta (taxo : Taxonomy) (m : RawMeta) : RawMeta :=
  match m.category, m.tags with
  | some c, some tg =>
    if c = "" then m
    else
      { m with category := some (mapCategory taxo c m.subcategory tg),
               subcategory := mapSubcategory (mapCategory taxo c m.subcategory tg) m.subcategory tg }
  | _, _ => m

/-- Identifier phase of validateJsonStructure: when a source key is truthy,
uniqueId is overwritten with the recomputed identifier, filling a missing id
and silently correcting a mismatched one. -/
def fixUniqueId (m : RawMeta) : RawMeta :=
  match m.sourceStackOverflowId with
  | some sid => if sid = "" then m else { m with uniqueId := some (generateUniqueId sid) }
  | none => m

/-- In-place mutation phase of validateJsonStructure: auto-mapping of
category and subcategory, then the identifier overwrite. -/
def mutateMeta (taxo : Taxonomy) (m : RawMeta) : RawMeta :=
  fixUniqueId (autoMapMeta taxo m)

/-- Required-field errors, in the fixed field order of the source; a field
is reported missing when its value is falsy. -/
def requiredFieldErrors (m : RawMeta) : List String :=
  (if strTruthy m.title then [] else ["Missing required metadata field: title"]) ++
  (if strTruthy m.slug then [] else ["Missing required metadata field: slug"]) ++
  (if strTruthy m.uniqueId then [] else ["Missing required metadata field: uniqueId"]) ++
  (if strTruthy m.category then [] else ["Missing required metadata field: category"]) ++
  (if strTruthy m.subcategory then [] else ["Missing required metadata field: subcategory"]) ++
  (if strTruthy m.description then [] else ["Missing required metadata field: description"]) ++
  (if m.tags.isSome then [] else ["Missing required metadata field: tags"]) ++
  (if strTruthy m.difficulty then [] else ["Missing required metadata field: difficulty"]) ++
  (match m.readTime with
   | some n => if n = 0 then ["Missing required metadata field: readTime"] else []
   | none => ["Missing required metadata field: readTime"])

/-- Lowercase-hexadecimal test for one character. -/
def isLowerHex (c : Char) : Bool :=
  ( '0' ≤ c && c ≤ '9') || ( 'a' ≤ c && c ≤ 'f')

/-- Match of the eight-character lowercase hexadecimal id pattern. -/
def isHex8 (s : String) : Bool :=
  s.length == 8 && s.data.all isLowerHex

/-- Format errors of the validator: id pattern, difficulty enumeration, and
description length, each checked only when the field is truthy. -/
def formatErrors (m : RawMeta) : List String :=
  (match m.uniqueId with
   | some u => if u ≠ "" && !(isHex8 u) then ["uniqueId must be 8-character hex string"] else []
   | none => []) ++
  (match m.difficulty with
   | some d =>
     if d ≠ "" && !(["beginner", "intermediate", "advanced"].contains d) then
       ["difficulty must be: beginner, intermediate, or advanced"]
     else []
   | none => []) ++
  (match m.description with
   | some d =>
     if d ≠ "" && (d.length < 20 || d.length > 200) then
       ["description must be 20-200 characters"]
     else []
   | none => [])

/-- Taxonomy errors of the validator: the category must exist, and the
subcategory is checked only under an existing category. -/
def categoryErrors (taxo : Taxonomy) (m : RawMeta) : List String :=
  match m.category with
  | some c =>
    if c = "" then []
    else if taxo.categories.any (fun cat => cat.id == c) then
      match m.subcategory with
      | some sub =>
        if sub = "" then []
        else
          match taxo.categories.find? (fun cat => cat.id == c) with
          | some cat =>
            if cat.subcategories.any (fun s => s == sub) then []
            else ["Invalid subcategory: " ++ sub ++ " for category: " ++ c]
          | none => []
      | none => []
    else ["Invalid category: " ++ c]
  | none => []

/-- Quality-metrics errors of the validator: a truthy word count below 100
is pushed as an error in this flow. -/
def qualityErrors (m : RawMeta) : List String :=
  match m.qualityMetrics with
  | some qm =>
    match qm.wordCount with
    | some w => if w ≠ 0 ∧ w < 100 then ["Content appears too short (< 100 words)"] else []
    | none => []
  | none => []

/-- Structure validator of the converter.  It returns the collected error
list together with the record as left after the in-place mutations; errors
appear in source order. -/
def validateJsonStructure (taxo : Taxonomy) (jd : JsonData) : List String × JsonData :=
  let baseErrs :=
    (match jd.metadata with
     | none => ["Missing metadata object"]
     | some _ => []) ++
    (if strTruthy jd.content then [] else ["Missing content field"])
  match jd.metadata with
  | none => (baseErrs, jd)
  | some m =>
    let m2 := mutateMeta taxo m
    (baseErrs ++ requiredFieldErrors m2 ++ formatErrors m2 ++
      categoryErrors taxo m2 ++ qualityErrors m2,
     { jd with metadata := some m2 })

/-- Advisory warning text of the staging content validator for a long title. -/
def serpWarning (title : String) : String :=
  "Title is " ++ toString title.length ++
    " characters - may be truncated in SERP display (~60 char limit), but full title still provides SEO value"

/-- Modelled from the spec: the staging content validator (validate-content.js,
absent from src/) emits one non-blocking SERP-display warning when the title
exceeds 60 characters; warnings never block. -/
def titleWarnings (title : String) : List String :=
  if 60 < title.length then [serpWarning title] else []

/-- Validation outcome: validity flag, blocking errors, advisory warnings. -/
structure ValidationResult where
  isValid : Bool
  errors : List String
  warnings : List String
deriving DecidableEq

/-- Modelled from the spec: the full validation result combines the error
list of validateJsonStructure (source) with the advisory title warning of the
staging content validator (validate-content.js, absent from src/); a record
is valid exactly when the error list is empty. -/
def validateRecord (taxo : Taxonomy) (jd : JsonData) : ValidationResult × JsonData :=
  let r := validateJsonStructure taxo jd
  ({ isValid := r.1.isEmpty,
     errors := r.1,
     warnings := match r.2.metadata with
       | some m => titleWarnings (m.title.getD "")
       | none => [] }, r.2)

/-! Document composition: body rewriting, frontmatter, and file naming.
The wall clock and the date parser of the runtime are passed in explicitly:
now stands for the current instant rendered in the canonical ISO form, and
parse models the combination of Date parsing with ISO rendering, returning
none on an unparseable input. -/

/-- Code-fence language lookup table of the converter. -/
def languageMappings : List (String × String) :=
  [("js", "javascript"), ("jsx", "jsx"), ("ts", "typescript"), ("tsx", "tsx"),
   ("py", "python"), ("python3", "python"), ("sh", "bash"), ("shell", "bash"),
   ("zsh", "bash"), ("cmd", "powershell"), ("yml", "yaml"), ("yaml", "yaml"),
   ("dockerfile", "docker"), ("html", "html"), ("css", "css"), ("scss", "scss"),
   ("sql", "sql"), ("json", "json"), ("xml", "xml"), ("md", "markdown"),
   ("markdown", "markdown"), ("mermaid", "mermaid"), ("text", "text"),
   ("plain", "text"), ("txt", "text"), ("output", "output"), ("console", "output"),
   ("config", "config"), ("conf", "config")]

/-- Fence character of a code block, the backquote. -/
def fenceChar : Char := Char.ofNat 96

/-- Word character of the language-tag pattern. -/
def isWordChar (c : Char) : Bool :=
  ( 'a' ≤ c && c ≤ 'z') || ( 'A' ≤ c && c ≤ 'Z') || ( '0' ≤ c && c ≤ '9') || c = '_'

/-- Canonical language for a fence tag: table lookup of the lowercased tag,
else the lowercased tag itself. -/
def mapLang (lang : String) : String :=
  (languageMappings.lookup (jsToLower lang)).getD (jsToLower lang)

/-- First body-rewriting pass: each fence of three backticks directly
followed by a word run has that run replaced by its canonical language.
Fuel bounds the scan; one character is consumed per step at least. -/
def codeLangGo : Nat → List Char → List Char
  | 0, cs => cs
  | _ + 1, [] => []
  | fuel + 1, c :: rest =>
    if c = fenceChar then
      match rest with
      | c2 :: c3 :: rest2 =>
        if c2 = fenceChar && c3 = fenceChar then
          let w := rest2.takeWhile isWordChar
          if w.isEmpty then c :: codeLangGo fuel rest
          else fenceChar :: fenceChar :: fenceChar :: (mapLang (String.mk w)).data ++
            codeLangGo fuel (rest2.drop w.length)
        else c :: codeLangGo fuel rest
      | _ => c :: codeLangGo fuel rest
    else c :: codeLangGo fuel rest

/-- Diagram keywords of the Mermaid heuristic, in alternation order. -/
def mermaidKeywords : List String :=
  ["graph", "flowchart", "sequenceDiagram", "classDiagram", "gitgraph"]

/-- Prefix test for a character list. -/
def listIsPrefix (p l : List Char) : Bool :=
  p.isPrefixOf l

/-- Second body-rewriting pass: a bare fence whose next line starts with a
diagram keyword is retagged as a mermaid fence. -/
def mermaidGo : Nat → List Char → List Char
  | 0, cs => cs
  | _ + 1, [] => []
  | fuel + 1, c :: rest =>
    if c = fenceChar then
      match rest with
      | c2 :: c3 :: c4 :: rest2 =>
        if c2 = fenceChar && c3 = fenceChar && c4 = '\n' then
          match mermaidKeywords.find? (fun kw => listIsPrefix kw.data rest2) with
          | some kw =>
            (fenceChar :: fenceChar :: fenceChar :: "mermaid\n".data) ++ kw.data ++
              mermaidGo fuel (rest2.drop kw.length)
          | none => c :: mermaidGo fuel rest
        else c :: mermaidGo fuel rest
      | _ => c :: mermaidGo fuel rest
    else c :: mermaidGo fuel rest

/-- Code-block processing of the converter: language remapping then the
Mermaid heuristic. -/
def processCodeBlocks (content : String) : String :=
  let l1 := codeLangGo content.data.length content.data
  String.mk (mermaidGo l1.length l1)

/-- Match attempt of the image pattern at the head of the input: bang,
bracketed nonempty alt text without a closing bracket, a parenthesis, a
negative lookahead for the placeholder marker, then a nonempty target
without a closing parenthesis.  Returns alt text, target, and the rest. -/
def tryMatchImage : List Char → Option (List Char × List Char × List Char)
  | '!' :: '[' :: rest =>
    let alt := rest.takeWhile (fun c => !(c == ']'))
    if alt.isEmpty then none
    else
      match rest.drop alt.length with
      | ']' :: '(' :: rest2 =>
        if listIsPrefix "PLACEHOLDER:".data rest2 then none
        else
          let url := rest2.takeWhile (fun c => !(c == ')'))
          if url.isEmpty then none
          else
            match rest2.drop url.length with
            | ')' :: rest3 => some (alt, url, rest3)
            | _ => none
      | _ => none
  | _ => none

/-- Replacement text for one matched image reference. -/
def imageReplacement (alt url : List Char) : List Char :=
  "![".data ++ alt ++ "](PLACEHOLDER: ".data ++ alt ++ " - ".data ++ url ++ ")".data

/-- Scan of the image-rewriting pass, with fuel; on a failed attempt the
scan advances one character, on a match it continues after the match. -/
def imagesGo : Nat → List Char → List Char
  | 0, cs => cs
  | fuel + 1, cs =>
    match cs with
    | c :: rest =>
      match tryMatchImage (c :: rest) with
      | some (alt, url, rest3) => imageReplacement alt url ++ imagesGo fuel rest3
      | none => c :: imagesGo fuel rest
    | [] => []

/-- Image rewriting of the converter: each standard image reference becomes
the annotated placeholder form, unless the lookahead finds it already in
that form. -/
def processImagePlaceholders (content : String) : String :=
  String.mk (imagesGo content.data.length content.data)

/-- Index of the last occurrence of a character, if any. -/
def lastIdxOf (c : Char) (l : List Char) : Option Nat :=
  match l.reverse.findIdx? (fun x => x == c) with
  | some j => some (l.length - 1 - j)
  | none => none

/-- Title policy of the converter: with no limit supplied the title is
returned as is; with a limit, the cut falls at the last space when that
space lies past seven tenths of the limit, else hard at the limit.  The
source compares against the floating-point product of the limit and 0.7;
the rational comparison used here agrees on integer positions away from
the representation error of that product. -/
def truncateTitle (title : String) (maxLength : Option Nat) : String :=
  match maxLength with
  | none => title
  | some maxLength =>
    if title.length ≤ maxLength then title
    else
      let truncated := title.data.take maxLength
      match lastIdxOf ' ' truncated with
      | some i =>
        if 7 * maxLength < 10 * i then String.mk (truncated.take i)
        else String.mk truncated
      | none => String.mk truncated

/-- Truthy-or chain over two optional strings, as in the source date
expressions: an empty or absent first operand yields the second. -/
def jsOrOpt (a b : Option String) : Option String :=
  match a with
  | some s => if s = "" then b else some s
  | none => b

/-- Truthy-or of an optional string against a string default. -/
def jsOr (a : Option String) (b : String) : String :=
  match a with
  | some s => if s = "" then b else s
  | none => b

/-- Date normalization of the converter: an absent or unparseable input is
replaced by the current instant, a parseable one by its ISO rendering. -/
def formatISODate (parse : String → Option String) (now : String)
    (dateString : Option String) : String :=
  match dateString with
  | none => now
  | some s => (parse s).getD now

/-- Escape of double quotes in a frontmatter value. -/
def escapeQuotes (s : String) : String :=
  String.mk (s.data.flatMap fun c => if c = '"' then [ '\\', '"'] else [c])

/-- JSON escape of one character, as in JSON.stringify for code points of
the basic plane. -/
def jsonEscapeChar (c : Char) : List Char :=
  if c = '"' then [ '\\', '"']
  else if c = '\\' then [ '\\', '\\']
  else if c = '\n' then [ '\\', 'n']
  else if c = '\t' then [ '\\', 't']
  else if c = '\r' then [ '\\', 'r']
  else if c.toNat = 8 then [ '\\', 'b']
  else if c.toNat = 12 then [ '\\', 'f']
  else if c.toNat < 32 then
    '\\' :: 'u' :: '0' :: '0' :: hexChar (c.toNat / 16) :: [hexChar (c.toNat % 16)]
  else [c]

/-- JSON string literal of a string. -/
def jsonString (s : String) : String :=
  "\"" ++ String.mk (s.data.flatMap jsonEscapeChar) ++ "\""

/-- JSON array literal of a string list, as JSON.stringify renders it. -/
def jsonStringifyArr (tags : List String) : String :=
  "[" ++ String.intercalate "," (tags.map jsonString) ++ "]"

/-- Metadata of a record that passed validation: the fields the composer
dereferences are present (validation rejected falsy ones), the rest stay
optional. -/
structure ConvMeta where
  title : String
  slug : String
  uniqueId : String
  category : String
  subcategory : String
  description : String
  tags : List String
  difficulty : String
  readTime : Nat
  featured : Option Bool
  generatedAt : Option String
  publishedAt : Option String
  sourceStackOverflowId : Option String
  technology : Option String
  qualityMetrics : Option QualityMetrics
deriving DecidableEq

/-- Frontmatter generation of the converter, one field per line between
triple-dash fences, followed by a blank line. -/
def generateMdxFrontmatter (parse : String → Option String) (now : String)
    (metadata : ConvMeta) : String :=
  let title := truncateTitle metadata.title none
  let slug := normalizeSlug metadata.slug
  let lastUpdated := formatISODate parse now (jsOrOpt metadata.generatedAt metadata.publishedAt)
  "---\ntitle: \"" ++ escapeQuotes title ++
  "\"\nslug: \"" ++ slug ++
  "\"\ncategory: \"" ++ metadata.category ++
  "\"\nsubcategory: \"" ++ metadata.subcategory ++
  "\"\ndescription: \"" ++ escapeQuotes metadata.description ++
  "\"\ntags: " ++ jsonStringifyArr metadata.tags ++
  "\ndifficulty: \"" ++ metadata.difficulty ++
  "\"\nreadTime: " ++ toString metadata.readTime ++
  "\nlastUpdated: \"" ++ lastUpdated ++
  "\"\nfeatured: " ++ (if metadata.featured.getD false then "true" else "false") ++
  "\n---\n\n"

/-- Conversion result: output filename, full MDX bytes, and the returned
metadata object of the source, flattened. -/
structure MdxOutput where
  mdxFilename : String
  mdxContent : String
  title : String
  slug : String
  uniqueId : String
  category : String
  subcategory : String
  description : String
  tags : List String
  difficulty : String
  readTime : Nat
  lastUpdated : String
  featured : Bool
  sourceStackOverflowId : Option String
  qualityMetrics : Option QualityMetrics
  technology : Option String
  publishedAt : Option String
  generatedAt : Option String
deriving DecidableEq

/-- Composition of the converter: body rewriting, metadata cleanup, output
filename from slug and id, frontmatter concatenated with the body. -/
def convertJsonToMdx (parse : String → Option String) (now : String)
    (metadata : ConvMeta) (content : String) : MdxOutput :=
  let content1 := processCodeBlocks content
  let content2 := processImagePlaceholders content1
  let m1 := { metadata with
    title := truncateTitle metadata.title none,
    slug := normalizeSlug metadata.slug }
  let mdxFilename := m1.slug ++ "-" ++ m1.uniqueId ++ ".mdx"
  let frontmatter := generateMdxFrontmatter parse now m1
  { mdxFilename := mdxFilename,
    mdxContent := frontmatter ++ content2,
    title := m1.title,
    slug := m1.slug,
    uniqueId := m1.uniqueId,
    category := m1.category,
    subcategory := m1.subcategory,
    description := m1.description,
    tags := m1.tags,
    difficulty := m1.difficulty,
    readTime := m1.readTime,
    lastUpdated := formatISODate parse now (jsOrOpt m1.generatedAt m1.publishedAt),
    featured := m1.featured.getD false,
    sourceStackOverflowId := m1.sourceStackOverflowId,
    qualityMetrics := m1.qualityMetrics,
    technology := m1.technology,
    publishedAt := m1.publishedAt,
    generatedAt := m1.generatedAt }

/-! Catalog merge.  The article index is folded with the batch of newly
converted records; the single merge instant stands in for each wall-clock
read during the merge. -/

/-- Tag-to-technology lookup table of the converter. -/
def technologyMappings : List (String × String) :=
  [("javascript", "JavaScript"), ("js", "JavaScript"), ("python", "Python"),
   ("py", "Python"), ("java", "Java"), ("sql", "SQL"), ("sql-server", "SQL Server"),
   ("mysql", "MySQL"), ("postgresql", "PostgreSQL"), ("mongodb", "MongoDB"),
   ("bash", "Bash"), ("shell", "Shell"), ("linux", "Linux"), ("windows", "Windows"),
   ("docker", "Docker"), ("aws", "AWS"), ("html", "HTML"), ("css", "CSS"),
   ("react", "React"), ("node", "Node.js"), ("npm", "npm")]

/-- Technology label from the first tag matching the lookup table, with the
fixed default label. -/
def getTechnologyFromTags (tags : List String) : String :=
  match tags.findSome? (fun tag => technologyMappings.lookup (jsToLower tag)) with
  | some tech => tech
  | none => "Programming"

/-- Entry of the article index. -/
structure IndexArticle where
  id : String
  title : String
  slug : String
  category : String
  subcategory : String
  difficulty : String
  technology : String
  readTime : Nat
  publishedAt : String
  featured : Bool
  description : String
  tags : List String
  filename : String
  lastUpdated : String
deriving DecidableEq

/-- Loaded article index: the current article list. -/
structure ArticleIndex where
  articles : List IndexArticle
deriving DecidableEq

/-- Updated article index written to staging: merge instant, aggregate
counts and derived sets, and the merged article list. -/
structure UpdatedIndex where
  lastUpdated : String
  totalArticles : Nat
  categories : List String
  technologies : List String
  articles : List IndexArticle
deriving DecidableEq

/-- Set construction in insertion order: first occurrence of each element
is kept, as the spread of a Set does. -/
def firstDedupGo (seen : List String) : List String → List String
  | [] => []
  | x :: xs =>
    if x ∈ seen then firstDedupGo seen xs
    else x :: firstDedupGo (x :: seen) xs

/-- Distinct elements of a list in first-occurrence order. -/
def firstDedup (l : List String) : List String := firstDedupGo [] l

/-- Sorted distinct elements, as the spread of a Set followed by sort. -/
def sortedDedup (l : List String) : List String :=
  List.insertionSort (· ≤ ·) (firstDedup l)

/-- Index entry built from one converted record during the merge. -/
def toIndexEntry (now : String) (n : MdxOutput) : IndexArticle :=
  { id := n.uniqueId,
    title := n.title,
    slug := n.slug,
    category := n.category,
    subcategory := n.subcategory,
    difficulty := n.difficulty,
    technology := jsOr n.technology (getTechnologyFromTags n.tags),
    readTime := n.readTime,
    publishedAt := jsOr n.publishedAt (jsOr n.generatedAt now),
    featured := n.featured || false,
    description := n.description,
    tags := n.tags,
    filename := n.slug ++ "-" ++ n.uniqueId ++ ".mdx",
    lastUpdated := jsOr n.generatedAt now }

/-- Catalog merge of the converter: existing articles whose slug occurs in
the batch are dropped, the batch entries are appended, and the aggregate
fields are recomputed in full from the resulting article list. -/
def updateArticleIndex (index : ArticleIndex) (newArticles : List MdxOutput)
    (now : String) : UpdatedIndex :=
  let existingArticles := index.articles.filter
    (fun article => !(newArticles.any fun n => n.slug == article.slug))
  let updatedArticles := existingArticles ++ newArticles.map (toIndexEntry now)
  let categories := sortedDedup (updatedArticles.map (fun a => a.category))
  let technologies := sortedDedup
    ((updatedArticles.map (fun a => a.technology)).filter (fun t => !(t == "")))
  { lastUpdated := now,
    totalArticles := updatedArticles.length,
    categories := categories,
    technologies := technologies,
    articles := updatedArticles }

/-! Sample inputs used by witnesses and counterexamples. -/

/-- Sample taxonomy with the canonical categories the resolver targets. -/
def sampleTaxonomy : Taxonomy :=
  ⟨[⟨"databases", ["sql", "mysql", "postgresql", "mongodb"]⟩,
    ⟨"programming-languages", ["java", "python", "javascript", "csharp", "cpp", "c", "go", "php", "ruby", "rust"]⟩,
    ⟨"system-devops", ["linux", "containerization", "cloud", "version-control", "shell"]⟩,
    ⟨"web-frontend", ["css", "html", "javascript"]⟩,
    ⟨"mobile", ["android", "ios"]⟩]⟩

/-- Sample record that passes every check of the structure validator. -/
def validMeta : RawMeta :=
  { title := some "How to tune MySQL queries",
    slug := some "how-to-tune-mysql-queries",
    uniqueId := some "0a1b2c3d",
    category := some "databases",
    subcategory := some "mysql",
    description := some "A walkthrough of index usage and query plans.",
    tags := some ["mysql"],
    difficulty := some "beginner",
    readTime := some 5,
    sourceStackOverflowId := none,
    qualityMetrics := none }

/-- Sample input wrapping the valid record with a body. -/
def validJson : JsonData :=
  { metadata := some validMeta, content := some "hello world" }

/-- Sample metadata for the composer, with no date supplied. -/
def convMetaNoDate : ConvMeta :=
  { title := "How to tune MySQL queries",
    slug := "how-to-tune-mysql-queries",
    uniqueId := "0a1b2c3d",
    category := "databases",
    subcategory := "mysql",
    description := "A walkthrough of index usage and query plans.",
    tags := ["mysql"],
    difficulty := "beginner",
    readTime := 5,
    featured := none,
    generatedAt := none,
    publishedAt := none,
    sourceStackOverflowId := none,
    technology := none,
    qualityMetrics := none }

/-- Sample converted record with slug a, first of a duplicate pair. -/
def dupOutA : MdxOutput :=
  { mdxFilename := "a-11111111.mdx", mdxContent := "one",
    title := "First", slug := "a", uniqueId := "11111111",
    category := "databases", subcategory := "mysql",
    description := "first description of the pair......",
    tags := ["mysql"], difficulty := "beginner", readTime := 3,
    lastUpdated := "2025-01-01T00:00:00.000Z", featured := false,
    sourceStackOverflowId := none, qualityMetrics := none,
    technology := some "MySQL", publishedAt := some "2025-01-01T00:00:00.000Z",
    generatedAt := some "2025-01-01T00:00:00.000Z" }

/-- Sample converted record with slug a, second of a duplicate pair. -/
def dupOutB : MdxOutput :=
  { mdxFilename := "a-22222222.mdx", mdxContent := "two",
    title := "Second", slug := "a", uniqueId := "22222222",
    category := "web-frontend", subcategory := "css",
    description := "second description of the pair.....",
    tags := ["css"], difficulty := "beginner", readTime := 4,
    lastUpdated := "2025-02-01T00:00:00.000Z", featured := false,
    sourceStackOverflowId := none, qualityMetrics := none,
    technology := some "CSS", publishedAt := some "2025-02-01T00:00:00.000Z",
    generatedAt := some "2025-02-01T00:00:00.000Z" }

/-! Helper lemmas on the hexadecimal digest. -/

theorem hexChar_mod_isLowerHex (n : Nat) : isLowerHex (hexChar (n % 16)) = true := by
  have h : n % 16 < 16 := Nat.mod_lt _ (by decide)
  revert h
  have : ∀ m, m < 16 → isLowerHex (hexChar m) = true := by decide
  exact this (n % 16)

theorem toHexWord_all_hex (w : Nat) : (toHexWord w).all isLowerHex = true := by
  simp only [toHexWord, List.all_cons, List.all_nil, Bool.and_true]
  repeat rw [hexChar_mod_isLowerHex]
  simp [hexChar_mod_isLowerHex]

theorem toHexWord_length (w : Nat) : (toHexWord w).length = 8 := by
  simp [toHexWord]

theorem sha256Hex_length (msg : List Nat) : (sha256Hex msg).length = 64 := by
  simp [sha256Hex, toHexWord_length]

theorem sha256Hex_all_hex (msg : List Nat) : (sha256Hex msg).all isLowerHex = true := by
  simp only [sha256Hex, List.all_append, Bool.and_eq_true]
  refine ⟨⟨⟨⟨⟨⟨⟨?_, ?_⟩, ?_⟩, ?_⟩, ?_⟩, ?_⟩, ?_⟩, ?_⟩ <;> exact toHexWord_all_hex _

theorem generateUniqueId_length (key : String) : (generateUniqueId key).length = 8 := by
  show (String.mk ((sha256Hex _).take 8)).length = 8
  simp [String.length, List.length_take, sha256Hex_length]

theorem generateUniqueId_all_hex (key : String) :
    (generateUniqueId key).data.all isLowerHex = true := by
  show ((sha256Hex _).take 8).all isLowerHex = true
  have h := sha256Hex_all_hex (utf8Bytes ("deepv-content-2025" ++ "-" ++ key))
  rw [List.all_eq_true] at h ⊢
  intro c hc
  exact h c (List.take_subset _ _ hc)

theorem generateUniqueId_ne_empty (key : String) : generateUniqueId key ≠ "" := by
  intro h
  have := generateUniqueId_length key
  rw [h] at this
  simp [String.length] at this

theorem generateUniqueId_isHex8 (key : String) : isHex8 (generateUniqueId key) = true := by
  simp [isHex8, generateUniqueId_length, generateUniqueId_all_hex]

/-- Claim C8: identifier generation is a deterministic pure function: for
every key, generateUniqueId returns the first 8 characters of the lowercase
hexadecimal SHA-256 digest of salt, hyphen, key with the fixed salt; the
result is an 8-character lowercase hexadecimal string, and equal calls give
equal results. -/
theorem C8_generateUniqueId_deterministic_hex8 (key : String) :
    generateUniqueId key =
      String.mk ((sha256Hex (utf8Bytes ("deepv-content-2025" ++ "-" ++ key))).take 8) ∧
    (generateUniqueId key).length = 8 ∧
    (generateUniqueId key).data.all isLowerHex = true ∧
    generateUniqueId key = generateUniqueId key := by
  exact ⟨rfl, generateUniqueId_length key, generateUniqueId_all_hex key, rfl⟩

/-! Helper lemmas on slug normalization. -/

theorem mem_collapseHyphens : ∀ (l : List Char) (a : Char), a ∈ collapseHyphens l → a ∈ l := by
  intro l
  induction l with
  | nil => simp [collapseHyphens]
  | cons c1 rest ih =>
    cases rest with
    | nil => simp [collapseHyphens]
    | cons c2 rest2 =>
      intro a h
      simp only [collapseHyphens] at h
      by_cases hc : (c1 = '-' && c2 = '-') = true
      · rw [if_pos hc] at h
        exact List.mem_cons_of_mem _ (ih a h)
      · rw [if_neg hc] at h
        rcases List.mem_cons.mp h with h1 | h2
        · exact h1 ▸ List.mem_cons_self _ _
        · exact List.mem_cons_of_mem _ (ih a h2)

theorem mem_dropLeadHyphen (l : List Char) (a : Char) (h : a ∈ dropLeadHyphen l) : a ∈ l := by
  cases l with
  | nil => exact h
  | cons c rest =>
    simp only [dropLeadHyphen] at h
    split at h
    · exact List.mem_cons_of_mem _ h
    · exact h

theorem mem_dropTrailHyphen (l : List Char) (a : Char) (h : a ∈ dropTrailHyphen l) : a ∈ l := by
  unfold dropTrailHyphen at h
  split at h
  · split at h
    · exact List.dropLast_subset _ h
    · exact h
  · exact h

theorem mem_stripOneEnds (l : List Char) (a : Char) (h : a ∈ stripOneEnds l) : a ∈ l :=
  mem_dropLeadHyphen _ _ (mem_dropTrailHyphen _ _ h)

theorem replaceNonSlug_all (l : List Char) (c : Char) (h : c ∈ replaceNonSlug l) :
    isSlugChar c = true := by
  rcases List.mem_map.mp h with ⟨x, _, hx⟩
  by_cases hs : isSlugChar x = true
  · rw [← hx, if_pos hs]; exact hs
  · rw [← hx, if_neg hs]; decide

/-- Counterexample to claim C2: slug normalization does not lowercase; on
the input of the scenario it deletes the uppercase letters instead of
lowercasing them, so the stated output is not produced. -/
theorem C2_counterexample :
    normalizeSlug "My_Article Title!" ≠ "my-article-title" ∧
    normalizeSlug "My_Article Title!" = "y-rticle-itle" := by
  constructor
  · decide
  · decide

/-- Claim C2 amended: normalizeSlug performs no lowercasing; it replaces
underscores with hyphens, maps every character outside lowercase letters,
digits and hyphen (uppercase letters included) to a hyphen, collapses
repeated hyphens and strips one leading and one trailing hyphen, so every
output character lies in that class; on the scenario input the uppercase
letters become hyphens and the result is y-rticle-itle. -/
theorem C2_normalizeSlug_amended :
    normalizeSlug "My_Article Title!" = "y-rticle-itle" ∧
    ∀ (s : String) (c : Char), c ∈ (normalizeSlug s).data → isSlugChar c = true := by
  refine ⟨by decide, ?_⟩
  intro s c h
  have h1 : c ∈ collapseHyphens (replaceNonSlug (replaceUnderscores s.data)) :=
    mem_stripOneEnds _ _ h
  have h2 : c ∈ replaceNonSlug (replaceUnderscores s.data) :=
    mem_collapseHyphens _ _ h1
  exact replaceNonSlug_all _ _ h2

/-- Witness for the amended claim C2, at the scenario input and its first
output character. -/
theorem C2_normalizeSlug_amended_witness :
    'y' ∈ (normalizeSlug "My_Article Title!").data ∧ isSlugChar 'y' = true :=
  ⟨by decide, C2_normalizeSlug_amended.2 "My_Article Title!" 'y' (by decide)⟩

/-- Counterexample to claim C3: for the unknown raw category database, a
direct rename to databases exists, yet with a frontend tag present the
resolver returns web-frontend — the tag-signal scan runs before the rename
lookup, not after it. -/
theorem C3_counterexample :
    categoryMappings "database" = some "databases" ∧
    (sampleTaxonomy.categories.any fun cat => cat.id == "database") = false ∧
    mapCategory sampleTaxonomy "database" (some "general") ["javascript"] = "web-frontend" ∧
    mapCategory sampleTaxonomy "database" (some "general") ["javascript"] ≠ "databases" := by
  refine ⟨by decide, by decide, by decide, by decide⟩

/-- Claim C3 amended: for a raw category absent from the taxonomy, the
resolver scans the tag-signal groups first, in the fixed order database,
devops, frontend, mobile, and only when no group matches does it fall back
to the direct rename lookup; when neither applies the raw category passes
through unchanged. -/
theorem C3_mapCategory_amended (taxo : Taxonomy) (category : String)
    (subcategory : Option String) (tags : List String)
    (h : (taxo.categories.any fun cat => cat.id == category) = false) :
    mapCategory taxo category subcategory tags =
      (let tagLower := tags.map jsToLower
       if tagLower.any (fun tag => dbTagSignals.contains tag) then "databases"
       else if tagLower.any (fun tag => devopsTagSignals.contains tag) then "system-devops"
       else if tagLower.any (fun tag => frontendTagSignals.contains tag) then "web-frontend"
       else if tagLower.any (fun tag => mobileTagSignals.contains tag) then "mobile"
       else (categoryMappings category).getD category) := by
  unfold mapCategory
  rw [h]
  simp

/-- Witness for the amended claim C3, at the unknown category database with
a frontend tag. -/
theorem C3_mapCategory_amended_witness :
    (sampleTaxonomy.categories.any fun cat => cat.id == "database") = false ∧
    mapCategory sampleTaxonomy "database" (some "general") ["javascript"] =
      (let tagLower := ["javascript"].map jsToLower
       if tagLower.any (fun tag => dbTagSignals.contains tag) then "databases"
       else if tagLower.any (fun tag => devopsTagSignals.contains tag) then "system-devops"
       else if tagLower.any (fun tag => frontendTagSignals.contains tag) then "web-frontend"
       else if tagLower.any (fun tag => mobileTagSignals.contains tag) then "mobile"
       else (categoryMappings "database").getD "database") :=
  ⟨by decide,
   C3_mapCategory_amended sampleTaxonomy "database" (some "general") ["javascript"] (by decide)⟩

/-! Helper lemmas on the mutation phase of the validator. -/

theorem autoMapMeta_preserves (taxo : Taxonomy) (m : RawMeta) :
    (autoMapMeta taxo m).title = m.title ∧
    (autoMapMeta taxo m).slug = m.slug ∧
    (autoMapMeta taxo m).uniqueId = m.uniqueId ∧
    (autoMapMeta taxo m).description = m.description ∧
    (autoMapMeta taxo m).tags = m.tags ∧
    (autoMapMeta taxo m).difficulty = m.difficulty ∧
    (autoMapMeta taxo m).readTime = m.readTime ∧
    (autoMapMeta taxo m).sourceStackOverflowId = m.sourceStackOverflowId ∧
    (autoMapMeta taxo m).qualityMetrics = m.qualityMetrics := by
  cases hc : m.category <;> cases ht : m.tags <;>
    simp [autoMapMeta, hc, ht] <;> split <;> simp_all

theorem fixUniqueId_preserves (m : RawMeta) :
    (fixUniqueId m).title = m.title ∧
    (fixUniqueId m).slug = m.slug ∧
    (fixUniqueId m).category = m.category ∧
    (fixUniqueId m).subcategory = m.subcategory ∧
    (fixUniqueId m).description = m.description ∧
    (fixUniqueId m).tags = m.tags ∧
    (fixUniqueId m).difficulty = m.difficulty ∧
    (fixUniqueId m).readTime = m.readTime ∧
    (fixUniqueId m).sourceStackOverflowId = m.sourceStackOverflowId ∧
    (fixUniqueId m).qualityMetrics = m.qualityMetrics := by
  cases hs : m.sourceStackOverflowId <;>
    simp [fixUniqueId, hs] <;> split <;> simp_all

theorem mutateMeta_title (taxo : Taxonomy) (m : RawMeta) :
    (mutateMeta taxo m).title = m.title := by
  unfold mutateMeta
  rw [(fixUniqueId_preserves _).1, (autoMapMeta_preserves taxo m).1]

theorem mutateMeta_qualityMetrics (taxo : Taxonomy) (m : RawMeta) :
    (mutateMeta taxo m).qualityMetrics = m.qualityMetrics := by
  unfold mutateMeta
  rw [(fixUniqueId_preserves _).2.2.2.2.2.2.2.2.2,
    (autoMapMeta_preserves taxo m).2.2.2.2.2.2.2.2]

theorem fixUniqueId_of_no_source (m : RawMeta)
    (h : m.sourceStackOverflowId = none ∨ m.sourceStackOverflowId = some "") :
    fixUniqueId m = m := by
  unfold fixUniqueId
  rcases h with h | h <;> rw [h]
  simp

theorem autoMapMeta_of_fixpoint (taxo : Taxonomy) (m : RawMeta)
    (h : ∀ c tg, m.category = some c → m.tags = some tg → c ≠ "" →
      mapCategory taxo c m.subcategory tg = c ∧
      mapSubcategory (mapCategory taxo c m.subcategory tg) m.subcategory tg = m.subcategory) :
    autoMapMeta taxo m = m := by
  unfold autoMapMeta
  cases hc : m.category with
  | none => simp
  | some c =>
    cases ht : m.tags with
    | none => simp
    | some tg =>
      simp only
      by_cases hce : c = ""
      · rw [if_pos hce]
      · rw [if_neg hce]
        obtain ⟨h1, h2⟩ := h c tg hc ht hce
        rw [h2, h1]
        cases m
        simp_all

/-- Counterexample to claim C7: validation is not free of record mutation;
on a record with the unknown category database and a mysql tag, the
returned record carries category databases and subcategory mysql, both
different from their input values. -/
theorem C7_counterexample :
    ((validateJsonStructure sampleTaxonomy
        { metadata := some { validMeta with category := some "database", subcategory := some "general" },
          content := some "hello world" }).2.metadata.map
      (fun m => (m.category, m.subcategory))) = some (some "databases", some "mysql") ∧
    (some (some "databases", some "mysql") : Option (Option String × Option String)) ≠
      some (some "database", some "general") := by
  constructor
  · decide
  · decide

theorem fixUniqueId_of_noop (m : RawMeta)
    (h : m.sourceStackOverflowId = none ∨ m.sourceStackOverflowId = some "" ∨
      ∃ sid, m.sourceStackOverflowId = some sid ∧
        m.uniqueId = some (generateUniqueId sid)) :
    fixUniqueId m = m := by
  rcases h with h | h | ⟨sid, hs, hu⟩
  · unfold fixUniqueId
    rw [h]
  · unfold fixUniqueId
    rw [h]
    simp
  · unfold fixUniqueId
    rw [hs]
    by_cases hse : sid = ""
    · simp [hse]
    · simp [hse]
      cases m
      simp_all

/-- Claim C7 amended: the validator is a deterministic function of record
and taxonomy and never throws, but it mutates the record in place: category,
subcategory and uniqueId can change.  The record is returned unchanged when
the resolver mappings fix its category and subcategory and the identifier
overwrite is a no-op — the source key is absent or empty, or the supplied
uniqueId already equals the identifier recomputed from that key. -/
theorem C7_validate_frame_amended (taxo : Taxonomy) (jd : JsonData) (m : RawMeta)
    (hm : jd.metadata = some m)
    (hfix : ∀ c tg, m.category = some c → m.tags = some tg → c ≠ "" →
      mapCategory taxo c m.subcategory tg = c ∧
      mapSubcategory (mapCategory taxo c m.subcategory tg) m.subcategory tg = m.subcategory)
    (hsid : m.sourceStackOverflowId = none ∨ m.sourceStackOverflowId = some "" ∨
      ∃ sid, m.sourceStackOverflowId = some sid ∧
        m.uniqueId = some (generateUniqueId sid)) :
    (validateJsonStructure taxo jd).2 = jd := by
  unfold validateJsonStructure
  rw [hm]
  simp only
  have hmut : mutateMeta taxo m = m := by
    unfold mutateMeta
    have hauto : autoMapMeta taxo m = m := autoMapMeta_of_fixpoint taxo m hfix
    rw [hauto, fixUniqueId_of_noop m hsid]
  rw [hmut, ← hm]

/-- Witness for the amended claim C7: a record already carrying a canonical
category and a non-sentinel subcategory, with no source key, is returned
unchanged. -/
theorem C7_validate_frame_amended_witness :
    validJson.metadata = some validMeta ∧
    (validateJsonStructure sampleTaxonomy validJson).2 = validJson :=
  ⟨rfl, C7_validate_frame_amended sampleTaxonomy validJson validMeta rfl
    (by intro c tg hc htg hne
        cases hc
        cases htg
        exact ⟨by decide, by decide⟩)
    (Or.inl rfl)⟩

/-! Claim C4: the word-count floor in the newer flow. -/

/-- Sample record valid in every respect except a word count of 50. -/
def shortMeta : RawMeta :=
  { validMeta with qualityMetrics := some { wordCount := some 50, codeBlocks := some 3 } }

/-- Sample input wrapping the short record with a body. -/
def shortJson : JsonData :=
  { metadata := some shortMeta, content := some "hello world" }

theorem mutateMeta_preserves (taxo : Taxonomy) (m : RawMeta) :
    (mutateMeta taxo m).title = m.title ∧
    (mutateMeta taxo m).slug = m.slug ∧
    (mutateMeta taxo m).description = m.description ∧
    (mutateMeta taxo m).tags = m.tags ∧
    (mutateMeta taxo m).difficulty = m.difficulty ∧
    (mutateMeta taxo m).readTime = m.readTime ∧
    (mutateMeta taxo m).sourceStackOverflowId = m.sourceStackOverflowId ∧
    (mutateMeta taxo m).qualityMetrics = m.qualityMetrics := by
  obtain ⟨a1, a2, a3, a4, a5, a6, a7, a8, a9⟩ := autoMapMeta_preserves taxo m
  obtain ⟨f1, f2, f3, f4, f5, f6, f7, f8, f9, f10⟩ := fixUniqueId_preserves (autoMapMeta taxo m)
  exact ⟨f1.trans a1, f2.trans a2, f5.trans a4, f6.trans a5, f7.trans a6,
    f8.trans a7, f9.trans a8, f10.trans a9⟩

/-- Counterexample to claim C4: a record that passes every required-field,
format and taxonomy check but reports a word count of 50 receives the
error-level flag of the newer flow, so it is invalid and is not composed. -/
theorem C4_counterexample :
    (validateJsonStructure sampleTaxonomy shortJson).1 =
      ["Content appears too short (< 100 words)"] ∧
    (validateRecord sampleTaxonomy shortJson).1.isValid = false := by
  constructor
  · decide
  · decide

/-- Claim C4 amended: in the newer flow a truthy word count below 100 is an
error-level check, not an advisory one: the error list of the validator
contains the content-too-short flag, so the record is invalid and is not
composed.  The legacy flow performs no word-count check at all. -/
theorem C4_wordcount_error_amended (taxo : Taxonomy) (jd : JsonData) (m : RawMeta)
    (qm : QualityMetrics) (w : Nat)
    (hm : jd.metadata = some m) (hq : m.qualityMetrics = some qm)
    (hw : qm.wordCount = some w) (hw0 : w ≠ 0) (hw100 : w < 100) :
    "Content appears too short (< 100 words)" ∈ (validateJsonStructure taxo jd).1 := by
  have hqm : (mutateMeta taxo m).qualityMetrics = some qm := by
    rw [(mutateMeta_preserves taxo m).2.2.2.2.2.2.2, hq]
  have herr : qualityErrors (mutateMeta taxo m) =
      ["Content appears too short (< 100 words)"] := by
    simp [qualityErrors, hqm, hw, hw0, hw100]
  simp [validateJsonStructure, hm, herr]

/-- Witness for the amended claim C4, at the record with word count 50. -/
theorem C4_wordcount_error_amended_witness :
    shortJson.metadata = some shortMeta ∧
    shortMeta.qualityMetrics = some { wordCount := some 50, codeBlocks := some 3 } ∧
    "Content appears too short (< 100 words)" ∈
      (validateJsonStructure sampleTaxonomy shortJson).1 :=
  ⟨rfl, rfl, C4_wordcount_error_amended sampleTaxonomy shortJson shortMeta
    { wordCount := some 50, codeBlocks := some 3 } 50 rfl rfl rfl (by decide) (by decide)⟩

/-! Claim C10: truthiness of the required-field presence check. -/

/-- Sample record with an empty uniqueId but a truthy source key. -/
def emptyIdMeta : RawMeta :=
  { validMeta with uniqueId := some "", sourceStackOverflowId := some "42" }

/-- Sample input wrapping the empty-id record with a body. -/
def emptyIdJson : JsonData :=
  { metadata := some emptyIdMeta, content := some "hello world" }

theorem autoMapMeta_category_empty (taxo : Taxonomy) (m : RawMeta)
    (h : m.category = some "") : (autoMapMeta taxo m).category = some "" := by
  cases ht : m.tags <;> simp [autoMapMeta, h, ht]

theorem autoMapMeta_subcategory_empty (taxo : Taxonomy) (m : RawMeta)
    (h : m.subcategory = some "") : (autoMapMeta taxo m).subcategory = some "" := by
  cases hc : m.category <;> cases ht : m.tags <;> simp [autoMapMeta, hc, ht, h]
  split
  · exact h
  · simp [mapSubcategory, h]

theorem mutateMeta_uniqueId_of_no_source (taxo : Taxonomy) (m : RawMeta)
    (hsid : m.sourceStackOverflowId = none ∨ m.sourceStackOverflowId = some "") :
    (mutateMeta taxo m).uniqueId = m.uniqueId := by
  unfold mutateMeta
  have hs : (autoMapMeta taxo m).sourceStackOverflowId = m.sourceStackOverflowId :=
    (autoMapMeta_preserves taxo m).2.2.2.2.2.2.2.1
  rw [fixUniqueId_of_no_source _ (by rw [hs]; exact hsid)]
  exact (autoMapMeta_preserves taxo m).2.2.1

theorem mem_validate_of_mem_required (taxo : Taxonomy) (jd : JsonData) (m : RawMeta)
    (hm : jd.metadata = some m) (e : String)
    (he : e ∈ requiredFieldErrors (mutateMeta taxo m)) :
    e ∈ (validateJsonStructure taxo jd).1 := by
  simp [validateJsonStructure, hm, List.mem_append]
  tauto

theorem invalid_of_mem_errors (taxo : Taxonomy) (jd : JsonData) (e : String)
    (he : e ∈ (validateJsonStructure taxo jd).1) :
    (validateRecord taxo jd).1.isValid = false := by
  have : (validateJsonStructure taxo jd).1.isEmpty = false := by
    cases hr : (validateJsonStructure taxo jd).1 with
    | nil => rw [hr] at he; exact absurd he (List.not_mem_nil e)
    | cons a l => rfl
  simp [validateRecord, this]

/-- Counterexample to claim C10: an empty uniqueId is not reported when a
truthy source key is present, because the identifier overwrite replaces the
empty value with the recomputed nonempty identifier before the
required-field check runs; here the record validates with no error at all. -/
theorem C10_counterexample :
    emptyIdMeta.uniqueId = some "" ∧
    "Missing required metadata field: uniqueId" ∉
      (validateJsonStructure sampleTaxonomy emptyIdJson).1 ∧
    (validateJsonStructure sampleTaxonomy emptyIdJson).1 = [] := by
  have hauto : autoMapMeta sampleTaxonomy emptyIdMeta = emptyIdMeta :=
    autoMapMeta_of_fixpoint _ _ (by
      intro c tg hc htg hne
      cases hc
      cases htg
      exact ⟨by decide, by decide⟩)
  have hm2 : mutateMeta sampleTaxonomy emptyIdMeta =
      { emptyIdMeta with uniqueId := some (generateUniqueId "42") } := by
    unfold mutateMeta
    rw [hauto]
    simp [fixUniqueId, emptyIdMeta, validMeta]
  have hgb : (generateUniqueId "42" == "") = false := by
    rw [beq_eq_false_iff_ne]
    exact generateUniqueId_ne_empty _
  have hhex : isHex8 (generateUniqueId "42") = true := generateUniqueId_isHex8 _
  have h1 : requiredFieldErrors { emptyIdMeta with uniqueId := some (generateUniqueId "42") } = [] := by
    simp [requiredFieldErrors, strTruthy, emptyIdMeta, validMeta, hgb]
  have h2 : formatErrors { emptyIdMeta with uniqueId := some (generateUniqueId "42") } = [] := by
    simp [formatErrors, emptyIdMeta, validMeta, hhex]
    decide
  have h3 : categoryErrors sampleTaxonomy
      { emptyIdMeta with uniqueId := some (generateUniqueId "42") } = [] := by
    simp [categoryErrors, emptyIdMeta, validMeta, sampleTaxonomy]
  have h4 : qualityErrors { emptyIdMeta with uniqueId := some (generateUniqueId "42") } = [] := by
    simp [qualityErrors, emptyIdMeta, validMeta]
  have hempty : (validateJsonStructure sampleTaxonomy emptyIdJson).1 = [] := by
    show (validateJsonStructure sampleTaxonomy
      { metadata := some emptyIdMeta, content := some "hello world" }).1 = []
    simp [validateJsonStructure, hm2, h1, h2, h3, h4, strTruthy]
  refine ⟨rfl, ?_, hempty⟩
  rw [hempty]
  exact List.not_mem_nil _

/-- Claim C10 amended: the required-field presence check uses truthiness,
so a present but falsy value is reported as missing and invalidates the
record: a readTime of zero, an empty title, slug, description, difficulty,
category or subcategory, absent tags — and an empty uniqueId provided no
truthy source key is present, since such a key overwrites the empty id with
a recomputed identifier before the check runs. -/
theorem C10_falsy_required_amended (taxo : Taxonomy) (jd : JsonData) (m : RawMeta)
    (hm : jd.metadata = some m) :
    (m.title = some "" →
      "Missing required metadata field: title" ∈ (validateJsonStructure taxo jd).1) ∧
    (m.slug = some "" →
      "Missing required metadata field: slug" ∈ (validateJsonStructure taxo jd).1) ∧
    (m.description = some "" →
      "Missing required metadata field: description" ∈ (validateJsonStructure taxo jd).1) ∧
    (m.difficulty = some "" →
      "Missing required metadata field: difficulty" ∈ (validateJsonStructure taxo jd).1) ∧
    (m.readTime = some 0 →
      "Missing required metadata field: readTime" ∈ (validateJsonStructure taxo jd).1) ∧
    (m.tags = none →
      "Missing required metadata field: tags" ∈ (validateJsonStructure taxo jd).1) ∧
    (m.category = some "" →
      "Missing required metadata field: category" ∈ (validateJsonStructure taxo jd).1) ∧
    (m.subcategory = some "" →
      "Missing required metadata field: subcategory" ∈ (validateJsonStructure taxo jd).1) ∧
    (m.uniqueId = some "" →
      (m.sourceStackOverflowId = none ∨ m.sourceStackOverflowId = some "") →
      "Missing required metadata field: uniqueId" ∈ (validateJsonStructure taxo jd).1) ∧
    (∀ e, e ∈ (validateJsonStructure taxo jd).1 →
      (validateRecord taxo jd).1.isValid = false) := by
  obtain ⟨p1, p2, p3, p4, p5, p6, p7, p8⟩ := mutateMeta_preserves taxo m
  refine ⟨?_, ?_, ?_, ?_, ?_, ?_, ?_, ?_, ?_, ?_⟩
  · intro h
    refine mem_validate_of_mem_required taxo jd m hm _ ?_
    simp [requiredFieldErrors, strTruthy, List.mem_append, p1, h]
  · intro h
    refine mem_validate_of_mem_required taxo jd m hm _ ?_
    simp [requiredFieldErrors, strTruthy, List.mem_append, p2, h]
  · intro h
    refine mem_validate_of_mem_required taxo jd m hm _ ?_
    simp [requiredFieldErrors, strTruthy, List.mem_append, p3, h]
  · intro h
    refine mem_validate_of_mem_required taxo jd m hm _ ?_
    simp [requiredFieldErrors, strTruthy, List.mem_append, p5, h]
  · intro h
    refine mem_validate_of_mem_required taxo jd m hm _ ?_
    simp [requiredFieldErrors, strTruthy, List.mem_append, p6, h]
  · intro h
    refine mem_validate_of_mem_required taxo jd m hm _ ?_
    simp [requiredFieldErrors, strTruthy, List.mem_append, p4, h]
  · intro h
    refine mem_validate_of_mem_required taxo jd m hm _ ?_
    have hc : (mutateMeta taxo m).category = some "" := by
      unfold mutateMeta
      rw [(fixUniqueId_preserves _).2.2.1]
      exact autoMapMeta_category_empty taxo m h
    simp [requiredFieldErrors, strTruthy, List.mem_append, hc]
  · intro h
    refine mem_validate_of_mem_required taxo jd m hm _ ?_
    have hc : (mutateMeta taxo m).subcategory = some "" := by
      unfold mutateMeta
      rw [(fixUniqueId_preserves _).2.2.2.1]
      exact autoMapMeta_subcategory_empty taxo m h
    simp [requiredFieldErrors, strTruthy, List.mem_append, hc]
  · intro h hsid
    refine mem_validate_of_mem_required taxo jd m hm _ ?_
    have hc : (mutateMeta taxo m).uniqueId = some "" := by
      rw [mutateMeta_uniqueId_of_no_source taxo m hsid]
      exact h
    simp [requiredFieldErrors, strTruthy, List.mem_append, hc]
  · exact fun e he => invalid_of_mem_errors taxo jd e he

/-- Sample record in which every required field is present but falsy. -/
def allFalsyMeta : RawMeta :=
  { title := some "", slug := some "", uniqueId := some "", category := some "",
    subcategory := some "", description := some "", tags := none,
    difficulty := some "", readTime := some 0, sourceStackOverflowId := none,
    qualityMetrics := none }

/-- Sample input wrapping the all-falsy record with a body. -/
def allFalsyJson : JsonData :=
  { metadata := some allFalsyMeta, content := some "hello world" }

/-- Witness for the amended claim C10, at the record in which every required
field is present but falsy and no source key is supplied. -/
theorem C10_falsy_required_amended_witness :
    allFalsyJson.metadata = some allFalsyMeta ∧
    "Missing required metadata field: readTime" ∈
      (validateJsonStructure sampleTaxonomy allFalsyJson).1 ∧
    "Missing required metadata field: title" ∈
      (validateJsonStructure sampleTaxonomy allFalsyJson).1 ∧
    "Missing required metadata field: uniqueId" ∈
      (validateJsonStructure sampleTaxonomy allFalsyJson).1 := by
  have T := C10_falsy_required_amended sampleTaxonomy allFalsyJson allFalsyMeta rfl
  exact ⟨rfl, T.2.2.2.2.1 rfl, T.1 rfl, T.2.2.2.2.2.2.2.2.1 rfl (Or.inl rfl)⟩

/-! Claim C6: long titles warn without blocking, and composition keeps the
full title. -/

/-- Claim C6: a record whose title exceeds 60 characters and which passes
every blocking check is valid, receives exactly the one advisory SERP
warning, and no error; and the composer leaves the title unmodified, since
truncation with the default argument returns its input for every title. -/
theorem C6_long_title_warn_only (taxo : Taxonomy) (jd : JsonData) (m : RawMeta)
    (hm : jd.metadata = some m)
    (herr : (validateJsonStructure taxo jd).1 = [])
    (hlen : 60 < (m.title.getD "").length) :
    (validateRecord taxo jd).1.isValid = true ∧
    (validateRecord taxo jd).1.errors = [] ∧
    (validateRecord taxo jd).1.warnings = [serpWarning (m.title.getD "")] ∧
    (∀ t, truncateTitle t none = t) ∧
    (∀ parse now meta content, (convertJsonToMdx parse now meta content).title = meta.title) := by
  have hmeta2 : (validateJsonStructure taxo jd).2.metadata = some (mutateMeta taxo m) := by
    simp [validateJsonStructure, hm]
  refine ⟨?_, ?_, ?_, fun t => rfl, fun parse now meta content => ?_⟩
  · simp [validateRecord, herr]
  · simp [validateRecord, herr]
  · simp [validateRecord, hmeta2, (mutateMeta_preserves taxo m).1, titleWarnings, hlen]
  · simp [convertJsonToMdx, truncateTitle]

/-- Sample 167-character title. -/
def longTitle : String := String.mk (List.replicate 167 'a')

/-- Sample otherwise-valid record carrying the 167-character title. -/
def longTitleMeta : RawMeta := { validMeta with title := some longTitle }

/-- Sample input wrapping the long-title record with a body. -/
def longTitleJson : JsonData :=
  { metadata := some longTitleMeta, content := some "hello world" }

set_option maxRecDepth 8192 in
/-- Witness for claim C6, at the record with the 167-character title. -/
theorem C6_long_title_warn_only_witness :
    longTitleJson.metadata = some longTitleMeta ∧
    (validateJsonStructure sampleTaxonomy longTitleJson).1 = [] ∧
    60 < (longTitleMeta.title.getD "").length ∧
    (validateRecord sampleTaxonomy longTitleJson).1.isValid = true ∧
    (validateRecord sampleTaxonomy longTitleJson).1.warnings =
      [serpWarning (longTitleMeta.title.getD "")] :=
  have T := C6_long_title_warn_only sampleTaxonomy longTitleJson longTitleMeta
    rfl (by decide) (by decide)
  ⟨rfl, by decide, by decide, T.1, T.2.2.1⟩

/-! Claim C5: determinism of composition and idempotence of the image
rewriting. -/

/-- Date parser that accepts nothing, standing for a run in which neither
date field parses. -/
def parseNone : String → Option String := fun _ => none

theorem takeWhile_append_cons (p : Char → Bool) (l : List Char) (x : Char) (r : List Char)
    (hall : ∀ a ∈ l, p a = true) (hx : p x = false) :
    ((l ++ x :: r).takeWhile p) = l := by
  induction l with
  | nil => simp [List.takeWhile_cons, hx]
  | cons a as ih =>
    have ha : p a = true := hall a (List.mem_cons_self a as)
    have ih2 := ih (fun b hb => hall b (List.mem_cons_of_mem a hb))
    simp [List.takeWhile_cons, ha, ih2]

theorem isPrefixOf_append (l t : List Char) : l.isPrefixOf (l ++ t) = true := by
  induction l with
  | nil => simp [List.isPrefixOf]
  | cons a as ih => simp [List.isPrefixOf, ih]

theorem tryMatchImage_placeholder (alt tail : List Char)
    (h1 : alt ≠ []) (h2 : ']' ∉ alt) :
    tryMatchImage ( '!' :: '[' :: (alt ++ ']' :: '(' :: ("PLACEHOLDER:".data ++ tail))) = none := by
  have htake : ((alt ++ ']' :: '(' :: ("PLACEHOLDER:".data ++ tail)).takeWhile
      (fun c => !(c == ']'))) = alt := by
    refine takeWhile_append_cons _ _ _ _ ?_ (by simp)
    intro a ha
    simp only [Bool.not_eq_true']
    rw [beq_eq_false_iff_ne]
    intro hcontra
    exact h2 (hcontra ▸ ha)
  simp only [tryMatchImage, htake, List.isEmpty_iff]
  rw [if_neg h1, List.drop_left]
  simp [listIsPrefix, isPrefixOf_append]

set_option maxRecDepth 32768 in
/-- Counterexample to claim C5: on a valid record with no generatedAt or
publishedAt, the composed output takes lastUpdated from the wall clock, so
two runs at different instants give different bytes. -/
theorem C5_counterexample :
    (validateJsonStructure sampleTaxonomy validJson).1 = [] ∧
    (convertJsonToMdx parseNone "2025-01-01T00:00:00.000Z" convMetaNoDate "hello").lastUpdated =
      "2025-01-01T00:00:00.000Z" ∧
    (convertJsonToMdx parseNone "2026-01-01T00:00:00.000Z" convMetaNoDate "hello").lastUpdated =
      "2026-01-01T00:00:00.000Z" ∧
    convertJsonToMdx parseNone "2025-01-01T00:00:00.000Z" convMetaNoDate "hello" ≠
      convertJsonToMdx parseNone "2026-01-01T00:00:00.000Z" convMetaNoDate "hello" := by
  refine ⟨by decide, by decide, by decide, by decide⟩

/-- Claim C5 amended: composition is a pure function of record, body, date
parser and clock instant; when the generatedAt-or-publishedAt chain yields a
date the parser accepts, the output is independent of the clock, so repeat
runs are byte-identical; and an image reference already in placeholder form
is not matched again, the lookahead blocking the rewrite, as the double
application on a concrete image shows.  Only records with no parseable date
take lastUpdated from the clock. -/
theorem C5_convert_deterministic_amended
    (parse : String → Option String) (now1 now2 : String) (m : ConvMeta)
    (content : String) (d iso : String)
    (hd : jsOrOpt m.generatedAt m.publishedAt = some d)
    (hp : parse d = some iso) :
    convertJsonToMdx parse now1 m content = convertJsonToMdx parse now2 m content ∧
    (∀ (alt tail : List Char), alt ≠ [] → ']' ∉ alt →
      tryMatchImage ( '!' :: '[' :: (alt ++ ']' :: '(' :: ("PLACEHOLDER:".data ++ tail))) = none) ∧
    processImagePlaceholders (processImagePlaceholders "![diagram](images/chart.png)") =
      processImagePlaceholders "![diagram](images/chart.png)" := by
  refine ⟨?_, tryMatchImage_placeholder, by decide⟩
  simp [convertJsonToMdx, generateMdxFrontmatter, formatISODate, hd, hp]

/-- Date parser of the witness, accepting one fixed date. -/
def parseOne : String → Option String :=
  fun s => if s = "2024-05-05" then some "2024-05-05T00:00:00.000Z" else none

/-- Sample metadata of the witness, carrying a parseable generatedAt. -/
def convMetaDated : ConvMeta := { convMetaNoDate with generatedAt := some "2024-05-05" }

set_option maxRecDepth 32768 in
/-- Witness for the amended claim C5, at a record with a parseable date and
two different clock instants. -/
theorem C5_convert_deterministic_amended_witness :
    jsOrOpt convMetaDated.generatedAt convMetaDated.publishedAt = some "2024-05-05" ∧
    parseOne "2024-05-05" = some "2024-05-05T00:00:00.000Z" ∧
    convertJsonToMdx parseOne "2025-01-01T00:00:00.000Z" convMetaDated "hello" =
      convertJsonToMdx parseOne "2026-01-01T00:00:00.000Z" convMetaDated "hello" ∧
    tryMatchImage ( '!' :: '[' :: (['x'] ++ ']' :: '(' :: ("PLACEHOLDER:".data ++ []))) = none :=
  have T := C5_convert_deterministic_amended parseOne
    "2025-01-01T00:00:00.000Z" "2026-01-01T00:00:00.000Z" convMetaDated "hello"
    "2024-05-05" "2024-05-05T00:00:00.000Z" (by decide) (by decide)
  ⟨by decide, by decide, T.1, T.2.1 ['x'] [] (by decide) (by decide)⟩

/-! Claims C1 and C9: catalog merge. -/

theorem mem_firstDedupGo (l : List String) : ∀ (seen : List String) (a : String),
    a ∈ firstDedupGo seen l ↔ (a ∈ l ∧ a ∉ seen) := by
  induction l with
  | nil => intro seen a; simp [firstDedupGo]
  | cons x xs ih =>
    intro seen a
    by_cases hx : x ∈ seen
    · rw [firstDedupGo, if_pos hx, ih]
      constructor
      · rintro ⟨h1, h2⟩
        exact ⟨List.mem_cons_of_mem x h1, h2⟩
      · rintro ⟨h1, h2⟩
        rcases List.mem_cons.mp h1 with h1 | h1
        · exact absurd (h1 ▸ hx) h2
        · exact ⟨h1, h2⟩
    · rw [firstDedupGo, if_neg hx]
      constructor
      · intro h
        rcases List.mem_cons.mp h with rfl | h
        · exact ⟨List.mem_cons_self a xs, hx⟩
        · obtain ⟨h1, h2⟩ := (ih (x :: seen) a).mp h
          exact ⟨List.mem_cons_of_mem x h1,
            fun hc => h2 (List.mem_cons_of_mem x hc)⟩
      · rintro ⟨h1, h2⟩
        by_cases hax : a = x
        · exact hax ▸ List.mem_cons_self x _
        · rcases List.mem_cons.mp h1 with h1 | h1
          · exact absurd h1 hax
          · refine List.mem_cons_of_mem x ((ih (x :: seen) a).mpr ⟨h1, ?_⟩)
            intro hc
            rcases List.mem_cons.mp hc with hc | hc
            · exact hax hc
            · exact h2 hc

theorem nodup_firstDedupGo (l : List String) : ∀ seen, (firstDedupGo seen l).Nodup := by
  induction l with
  | nil => intro seen; simp [firstDedupGo]
  | cons x xs ih =>
    intro seen
    by_cases hx : x ∈ seen
    · rw [firstDedupGo, if_pos hx]
      exact ih seen
    · rw [firstDedupGo, if_neg hx]
      refine List.nodup_cons.mpr ⟨?_, ih (x :: seen)⟩
      intro hc
      exact ((mem_firstDedupGo xs (x :: seen) x).mp hc).2 (List.mem_cons_self x seen)

theorem mem_firstDedup (l : List String) (a : String) : a ∈ firstDedup l ↔ a ∈ l := by
  rw [firstDedup, mem_firstDedupGo]
  simp

theorem nodup_firstDedup (l : List String) : (firstDedup l).Nodup :=
  nodup_firstDedupGo l []

theorem sortedDedup_sorted (l : List String) : (sortedDedup l).Sorted (· ≤ ·) :=
  List.sorted_insertionSort _ _

theorem sortedDedup_nodup (l : List String) : (sortedDedup l).Nodup :=
  (List.perm_insertionSort _ _).nodup_iff.mpr (nodup_firstDedup l)

theorem mem_sortedDedup (l : List String) (a : String) : a ∈ sortedDedup l ↔ a ∈ l :=
  (List.perm_insertionSort _ _).mem_iff.trans (mem_firstDedup l a)

theorem map_slug_toIndexEntry (now : String) (l : List MdxOutput) :
    (l.map (toIndexEntry now)).map (fun a => a.slug) = l.map (fun n => n.slug) := by
  rw [List.map_map]
  rfl

theorem filter_map_toIndexEntry (now : String) (l : List MdxOutput) (n : MdxOutput)
    (hnd : (l.map (fun x => x.slug)).Nodup) (hn : n ∈ l) :
    (l.map (toIndexEntry now)).filter (fun a => a.slug == n.slug) = [toIndexEntry now n] := by
  induction l with
  | nil => cases hn
  | cons x xs ih =>
    have hx : x.slug ∉ xs.map (fun y => y.slug) := (List.nodup_cons.mp hnd).1
    simp only [List.map_cons, List.filter_cons]
    rcases List.mem_cons.mp hn with rfl | hmem
    · have hkeep : ((toIndexEntry now n).slug == n.slug) = true := by
        show (n.slug == n.slug) = true
        simp
      have hnil : (xs.map (toIndexEntry now)).filter (fun a => a.slug == n.slug) = [] := by
        rw [List.filter_eq_nil_iff]
        intro a ha
        rcases List.mem_map.mp ha with ⟨y, hy, rfl⟩
        show ¬((toIndexEntry now y).slug == n.slug) = true
        have hne : y.slug ≠ n.slug := by
          intro he
          exact hx (he ▸ List.mem_map_of_mem _ hy)
        show ¬(y.slug == n.slug) = true
        simp [hne]
      simp [hkeep, hnil]
    · have hne : x.slug ≠ n.slug := by
        intro he
        exact hx (he ▸ List.mem_map_of_mem _ hmem)
      have hdrop : ((toIndexEntry now x).slug == n.slug) = false := by
        show (x.slug == n.slug) = false
        rw [beq_eq_false_iff_ne]
        exact hne
      simp only [hdrop, Bool.false_eq_true, if_false]
      exact ih (List.nodup_cons.mp hnd).2 hmem

set_option maxRecDepth 32768 in
/-- Counterexample to claim C1: a batch containing two entries with the same
slug is appended wholesale — the merge removes matching existing entries but
never deduplicates within the batch, so the resulting index holds slug a
twice. -/
theorem C1_counterexample :
    ((updateArticleIndex ⟨[]⟩ [dupOutA, dupOutB] "2025-03-01T00:00:00.000Z").articles.map
      (fun a => a.slug)) = ["a", "a"] ∧
    ¬ ((updateArticleIndex ⟨[]⟩ [dupOutA, dupOutB] "2025-03-01T00:00:00.000Z").articles.map
      (fun a => a.slug)).Nodup ∧
    ((updateArticleIndex ⟨[]⟩ [dupOutA, dupOutB] "2025-03-01T00:00:00.000Z").articles.filter
      (fun a => a.slug == "a")).length = 2 := by
  refine ⟨by decide, by decide, by decide⟩

/-- Claim C1 amended: when the batch slugs are pairwise distinct and the
existing catalog slugs are pairwise distinct, the merged index has pairwise
distinct slugs, and each batch slug is held by exactly one entry, the entry
built from the batch record — the newest one.  A batch with an internal
duplicate slug violates uniqueness, as the counterexample shows. -/
theorem C1_merge_uniqueness_amended (index : ArticleIndex) (newArticles : List MdxOutput)
    (now : String)
    (h1 : (index.articles.map (fun a => a.slug)).Nodup)
    (h2 : (newArticles.map (fun n => n.slug)).Nodup) :
    ((updateArticleIndex index newArticles now).articles.map (fun a => a.slug)).Nodup ∧
    ∀ n ∈ newArticles,
      ((updateArticleIndex index newArticles now).articles.filter
        (fun a => a.slug == n.slug)) = [toIndexEntry now n] := by
  have harts : (updateArticleIndex index newArticles now).articles =
      index.articles.filter (fun article => !(newArticles.any fun n => n.slug == article.slug)) ++
      newArticles.map (toIndexEntry now) := rfl
  constructor
  · rw [harts, List.map_append]
    refine List.Nodup.append ?_ ?_ ?_
    · exact h1.sublist ((List.filter_sublist _).map _)
    · rw [map_slug_toIndexEntry]
      exact h2
    · rw [map_slug_toIndexEntry]
      intro x hxE hxN
      rcases List.mem_map.mp hxE with ⟨a, haf, rfl⟩
      rcases List.mem_map.mp hxN with ⟨n, hnn, heq⟩
      have hany : (newArticles.any fun n2 => n2.slug == a.slug) = true :=
        List.any_eq_true.mpr ⟨n, hnn, by simp [heq]⟩
      have := (List.mem_filter.mp haf).2
      rw [hany] at this
      exact absurd this (by decide)
  · intro n hn
    rw [harts, List.filter_append]
    have hE : (index.articles.filter
        (fun article => !(newArticles.any fun n2 => n2.slug == article.slug))).filter
        (fun a => a.slug == n.slug) = [] := by
      rw [List.filter_eq_nil_iff]
      intro a ha
      have hpred := (List.mem_filter.mp ha).2
      intro hbeq
      have hany : (newArticles.any fun n2 => n2.slug == a.slug) = true :=
        List.any_eq_true.mpr ⟨n, hn, by
          rw [beq_iff_eq] at hbeq ⊢
          exact hbeq.symm⟩
      rw [hany] at hpred
      exact absurd hpred (by decide)
    rw [hE, List.nil_append]
    exact filter_map_toIndexEntry now newArticles n h2 hn

set_option maxRecDepth 32768 in
/-- Witness for the amended claim C1: merging a batch of one record with
slug a into a catalog already holding a different entry with slug a leaves
exactly the new entry for that slug. -/
theorem C1_merge_uniqueness_amended_witness :
    ((ArticleIndex.mk [toIndexEntry "2025-03-01T00:00:00.000Z" dupOutA]).articles.map
      (fun a => a.slug)).Nodup ∧
    (([dupOutB].map (fun n => n.slug)).Nodup) ∧
    ((updateArticleIndex ⟨[toIndexEntry "2025-03-01T00:00:00.000Z" dupOutA]⟩ [dupOutB]
      "2025-04-01T00:00:00.000Z").articles.map (fun a => a.slug)).Nodup ∧
    ∀ n ∈ [dupOutB],
      ((updateArticleIndex ⟨[toIndexEntry "2025-03-01T00:00:00.000Z" dupOutA]⟩ [dupOutB]
        "2025-04-01T00:00:00.000Z").articles.filter
        (fun a => a.slug == n.slug)) = [toIndexEntry "2025-04-01T00:00:00.000Z" n] :=
  have T := C1_merge_uniqueness_amended
    ⟨[toIndexEntry "2025-03-01T00:00:00.000Z" dupOutA]⟩ [dupOutB]
    "2025-04-01T00:00:00.000Z" (by decide) (by decide)
  ⟨by decide, by decide, T.1, T.2⟩

/-- Claim C9: after any merge the aggregate fields are consistent with the
resulting article list: totalArticles is its length, and categories and
technologies are the sorted duplicate-free sets of the category values and
of the nonempty technology labels of the current articles, recomputed from
that list. -/
theorem C9_aggregate_consistency (index : ArticleIndex) (newArticles : List MdxOutput)
    (now : String) :
    (updateArticleIndex index newArticles now).totalArticles =
      (updateArticleIndex index newArticles now).articles.length ∧
    ((updateArticleIndex index newArticles now).categories.Sorted (· ≤ ·) ∧
     (updateArticleIndex index newArticles now).categories.Nodup ∧
     ∀ c, c ∈ (updateArticleIndex index newArticles now).categories ↔
       c ∈ (updateArticleIndex index newArticles now).articles.map (fun a => a.category)) ∧
    ((updateArticleIndex index newArticles now).technologies.Sorted (· ≤ ·) ∧
     (updateArticleIndex index newArticles now).technologies.Nodup ∧
     ∀ t, t ∈ (updateArticleIndex index newArticles now).technologies ↔
       (t ≠ "" ∧ t ∈ (updateArticleIndex index newArticles now).articles.map
         (fun a => a.technology))) := by
  refine ⟨rfl, ⟨sortedDedup_sorted _, sortedDedup_nodup _, fun c => ?_⟩,
    ⟨sortedDedup_sorted _, sortedDedup_nodup _, fun t => ?_⟩⟩
  · exact mem_sortedDedup _ c
  · rw [show (updateArticleIndex index newArticles now).technologies =
      sortedDedup (((updateArticleIndex index newArticles now).articles.map
        (fun a => a.technology)).filter (fun t => !(t == ""))) from rfl]
    rw [mem_sortedDedup, List.mem_filter]
    simp [And.comm]

end DeepV

